import Mathlib

/-!
Verification of the `vald` validation framework (package `vald`, file `vald.go`).

The Go code builds validators as closures over immutable configuration. A Go
`Consumer` may carry hidden mutable state (e.g. the map-filling sink used by
`Validator.Map`), so the shallow embedding purifies it into explicit state
passing: a consumer of state type `σ` maps a state and a key/value pair to a
new state together with an optional error, and a validator threads the state
through its consumer calls. Go `error` values produced by this package are all
`errors.New` values distinguished only by their message, so errors are
embedded as `String`. Constructors that panic on misconfiguration (`Pack`,
`Cond`, `OneOf`) are embedded as `Option`-returning functions, `none` standing
for the construction-time panic.
-/

set_option autoImplicit false

namespace vald

/-- Errors produced by the package are `errors.New` values; only the message
is observable. -/
abbrev Err := String

/-- Embedding of `Getter` from vald.go: given a key, returns its value, or the empty
string when the key is not found. -/
abbrev Getter := String → String

/-- Embedding of `Consumer` from vald.go, purified: a Go consumer closure with hidden
state of type `σ` becomes a function from the state and the key/value pair to
the new state and an optional error. -/
abbrev Consumer (σ : Type) := σ → String → String → σ × Option Err

/-- Embedding of `Validator` from vald.go, purified over the consumer state `σ`: invoking
the validator with a getter, a consumer and the consumer state yields the
final consumer state and an optional error. -/
abbrev Validator (σ : Type) := Getter → Consumer σ → σ → σ × Option Err

/-- Embedding of `Checker` from vald.go: validates a value, returning the normalized value
or an error. -/
abbrev Checker := String → String × Option Err

/-- Model of `strconv.Quote` from the Go standard library, for the character
classes arising in this package: the string is wrapped in double quotes with
backslash and double-quote characters escaped. (Go additionally escapes
control and non-ASCII characters, which this model passes through unchanged;
no claim depends on those.) -/
def goQuote (s : String) : String :=
  "\"" ++ String.join (s.data.map (fun c =>
    if c = '\\' then "\\\\"
    else if c = '"' then "\\\""
    else String.singleton c)) ++ "\""

/-- A Go `map[string]string`, embedded as an association list; insertion
replaces the entry for an existing key in place. -/
abbrev GoMap := List (String × String)

/-- Go map assignment `m[k] = v`: replace the value stored under `k`, or add
the entry when `k` is not present. -/
def mapInsert : GoMap → String → String → GoMap
  | [], k, v => [(k, v)]
  | (k', v') :: rest, k, v =>
    if k' = k then (k, v) :: rest else (k', v') :: mapInsert rest k v

/-- Go map read `m[k]` with the zero value `""` for a missing key. -/
def mapGetD : GoMap → String → String
  | [], _ => ""
  | (k', v) :: rest, k => if k' = k then v else mapGetD rest k

/-- Go map read distinguishing a missing key (the `v, ok := m[k]` form); used
to state the last-write-wins property of map insertion. -/
def mapFind : GoMap → String → Option String
  | [], _ => none
  | (k', v) :: rest, k => if k' = k then some v else mapFind rest k

/-- Embedding of `FromMap` from vald.go: constructs a `Getter` from a Go map. -/
def FromMap (m : GoMap) : Getter := fun k => mapGetD m k

/-- Embedding of `doCheck` from vald.go: run the checker on the value; on checker failure
return a field-scoped error naming the key; on success forward the normalized
value to the consumer and return its result unchanged. -/
def doCheck {σ : Type} (key val : String) (check : Checker) (cons : Consumer σ)
    (s : σ) : σ × Option Err :=
  match check val with
  | (_, some e) => (s, some ("invalid value for key " ++ goQuote key ++ ": " ++ e))
  | (v, none) => cons s key v

/-- Embedding of `Req` from vald.go: retrieve the value for `key`; when present, check and
emit via `doCheck`; when absent, fail with a "missing key" error. -/
def Req {σ : Type} (key : String) (check : Checker) : Validator σ :=
  fun get cons s =>
    let val := get key
    if val.length > 0 then doCheck key val check cons s
    else (s, some ("missing key: " ++ goQuote key))

/-- Embedding of `Opt` from vald.go: retrieve the value for `key`; when present, check and
emit via `doCheck`; when absent, do nothing. -/
def Opt {σ : Type} (key : String) (check : Checker) : Validator σ :=
  fun get cons s =>
    let val := get key
    if val.length > 0 then doCheck key val check cons s
    else (s, none)

/-- Embedding of `OptDef` from vald.go: retrieve the value for `key`; when present, check
and emit via `doCheck`; when absent, invoke the consumer with the default
value, which is never passed through the checker. -/
def OptDef {σ : Type} (key : String) (check : Checker) (deflt : String) : Validator σ :=
  fun get cons s =>
    let val := get key
    if val.length > 0 then doCheck key val check cons s
    else cons s key deflt

/-- The validator closure returned by `Cond` in vald.go: when the value for
`key` is present, check and emit via `doCheck` and, only on success, run the
`yes` sub-validator when non-nil; when absent, run the `no` sub-validator
when non-nil. -/
def condBody {σ : Type} (key : String) (check : Checker)
    (yes no : Option (Validator σ)) : Validator σ :=
  fun get cons s =>
    let val := get key
    if val.length > 0 then
      match doCheck key val check cons s with
      | (s', none) =>
        match yes with
        | some y => y get cons s'
        | none => (s', none)
      | (s', some e) => (s', some e)
    else
      match no with
      | some n => n get cons s
      | none => (s, none)

/-- Embedding of `Cond` from vald.go: panics (here `none`) when both sub-validators are
nil, otherwise returns the conditional validator `condBody`. -/
def Cond {σ : Type} (key : String) (check : Checker)
    (yes no : Option (Validator σ)) : Option (Validator σ) :=
  match yes, no with
  | none, none => none
  | _, _ => some (condBody key check yes no)

/-- The loop inside the validator returned by `Pack` in vald.go: run the
validators in order, stopping at the first error and returning it. -/
def runList {σ : Type} : List (Validator σ) → Getter → Consumer σ → σ → σ × Option Err
  | [], _, _, s => (s, none)
  | v :: rest, get, cons, s =>
    match v get cons s with
    | (s', none) => runList rest get cons s'
    | (s', some e) => (s', some e)

/-- Embedding of `Pack` from vald.go: panics (here `none`) on an empty validator list,
otherwise returns a validator running the given validators in order via
`runList`. -/
def Pack {σ : Type} (validators : List (Validator σ)) : Option (Validator σ) :=
  match validators with
  | [] => none
  | _ => some (fun get cons s => runList validators get cons s)

/-- Embedding of `OneOf` from vald.go: panics (here `none`) on an empty literal list or a
list containing an empty literal; otherwise builds the interning map
`m[lit] = lit` and returns a checker that looks its argument up in the map,
failing with the quoted argument when the stored value is empty (i.e. the
argument is not a literal). -/
def OneOf (literals : List String) : Option Checker :=
  if literals.isEmpty then none
  else if literals.any (fun lit => lit.isEmpty) then none
  else
    let m := literals.foldl (fun acc lit => mapInsert acc lit lit) []
    some (fun val =>
      let s := mapGetD m val
      if s.length = 0 then (s, some (goQuote val)) else (s, none))

/-- Model of `strconv.ParseBool` from the Go standard library: accepts
exactly `1, t, T, TRUE, true, True` as true and `0, f, F, FALSE, false,
False` as false; anything else is a syntax error (`none`). -/
def ParseBool (str : String) : Option Bool :=
  if str = "1" ∨ str = "t" ∨ str = "T" ∨ str = "true" ∨ str = "TRUE" ∨ str = "True" then
    some true
  else if str = "0" ∨ str = "f" ∨ str = "F" ∨ str = "false" ∨ str = "FALSE" ∨ str = "False" then
    some false
  else
    none

/-- Model of `strconv.FormatBool` from the Go standard library. -/
def FormatBool (b : Bool) : String := if b then "true" else "false"

/-- Embedding of `mapNumErr` from vald.go: a failing `strconv.Parse*` call returns a
`*strconv.NumError` wrapping an underlying reason; `mapNumErr` unwraps it and
formats the quoted value followed by the reason. `inner` is the unwrapped
reason's message (always "invalid syntax" for `ParseBool`). -/
def mapNumErr (val : String) (inner : String) : Err :=
  goQuote val ++ ": " ++ inner

/-- Embedding of `Bool` from vald.go: convert the value with `ParseBool`; on success
return "true" or "false" via `FormatBool`; on failure return the error mapped
by `mapNumErr`. -/
def Bool (val : String) : String × Option Err :=
  match ParseBool val with
  | none => ("", some (mapNumErr val "invalid syntax"))
  | some flag => (FormatBool flag, none)

/-- The consumer constructed inside `Validator.Map` in vald.go: write the
pair into the map and return no error. -/
def mapCons : Consumer GoMap := fun r k v => (mapInsert r k v, none)

/-- Embedding of `Validator.Map` from vald.go: run the validator with the given getter
and the map-filling consumer `mapCons` starting from an empty map; on error
return no map and the error, otherwise the map and no error. -/
def Validator.Map (validate : Validator GoMap) (get : Getter) :
    Option GoMap × Option Err :=
  match validate get mapCons [] with
  | (r, none) => (some r, none)
  | (_, some e) => (none, some e)

/-! Fixtures used by the concrete witnesses: a consumer recording the
emission sequence, a consumer that always fails, and a small source. -/

/-- A consumer that records the emitted pairs in order and never fails. -/
def recCons : Consumer GoMap := fun s k v => (s ++ [(k, v)], none)

/-- A consumer that always fails, leaving its state unchanged. -/
def failCons : Consumer GoMap := fun s _ _ => (s, some "sink failure")

/-- A small concrete source. -/
def srcAB : Getter := FromMap [("aaa", "1"), ("bbb", "0")]

/-! Helper lemmas shared by the claim theorems. -/

theorem length_pos_of_ne_empty {s : String} (h : s ≠ "") : 0 < s.length := by
  cases s with
  | mk data =>
    cases data with
    | nil => exact absurd rfl h
    | cons c cs => simp [String.length]

theorem doCheck_ok {σ : Type} {key val : String} {check : Checker} {v : String}
    (cons : Consumer σ) (s : σ) (h : check val = (v, none)) :
    doCheck key val check cons s = cons s key v := by
  simp [doCheck, h]

theorem doCheck_err {σ : Type} {key val : String} {check : Checker} {v : String} {e : Err}
    (cons : Consumer σ) (s : σ) (h : check val = (v, some e)) :
    doCheck key val check cons s =
      (s, some ("invalid value for key " ++ goQuote key ++ ": " ++ e)) := by
  simp [doCheck, h]

theorem Req_absent {σ : Type} {key : String} (check : Checker) {get : Getter}
    (cons : Consumer σ) (s : σ) (h : get key = "") :
    Req key check get cons s = (s, some ("missing key: " ++ goQuote key)) := by
  simp [Req, h]

theorem Req_present {σ : Type} {key : String} (check : Checker) {get : Getter}
    (cons : Consumer σ) (s : σ) (h : get key ≠ "") :
    Req key check get cons s = doCheck key (get key) check cons s := by
  simp only [Req]
  rw [if_pos (length_pos_of_ne_empty h)]

theorem runList_append {σ : Type} (vs₁ vs₂ : List (Validator σ)) (get : Getter)
    (cons : Consumer σ) (s : σ) :
    runList (vs₁ ++ vs₂) get cons s =
      match runList vs₁ get cons s with
      | (s₁, none) => runList vs₂ get cons s₁
      | (s₁, some e) => (s₁, some e) := by
  induction vs₁ generalizing s with
  | nil => simp [runList]
  | cons v rest ih =>
    simp only [List.cons_append, runList]
    rcases hv : v get cons s with ⟨s', _ | e⟩
    · simp [ih]
    · simp

/-- Claim C1: `Pack` rejects the empty list at construction time (`none`,
modelling the panic); on a non-empty list it returns the validator that runs
the constituents in construction order via `runList`; `runList` on a
concatenation runs the prefix first and continues with the suffix only when
the prefix succeeded; when a prefix succeeds and the next validator fails,
the failure is returned unchanged and the remaining validators are not
invoked (the result does not depend on them); when every constituent
succeeds, the result carries no failure. `Pack` itself performs no fetch or
check: the returned validator is exactly `runList` over the constituents. -/
theorem C1_Pack_order_shortcircuit :
    (∀ σ : Type, Pack (σ := σ) [] = none) ∧
    (∀ (σ : Type) (validators : List (Validator σ)), validators ≠ [] →
      Pack validators = some (fun get cons s => runList validators get cons s)) ∧
    (∀ (σ : Type) (vs₁ vs₂ : List (Validator σ)) (get : Getter) (cons : Consumer σ) (s : σ),
      runList (vs₁ ++ vs₂) get cons s =
        match runList vs₁ get cons s with
        | (s₁, none) => runList vs₂ get cons s₁
        | (s₁, some e) => (s₁, some e)) ∧
    (∀ (σ : Type) (vs₁ : List (Validator σ)) (v : Validator σ) (vs₂ : List (Validator σ))
        (get : Getter) (cons : Consumer σ) (s s₁ s₂ : σ) (e : Err),
      runList vs₁ get cons s = (s₁, none) → v get cons s₁ = (s₂, some e) →
      runList (vs₁ ++ v :: vs₂) get cons s = (s₂, some e)) ∧
    (∀ (σ : Type) (vs : List (Validator σ)) (get : Getter) (cons : Consumer σ) (s : σ),
      (∀ v ∈ vs, ∀ t, (v get cons t).2 = none) → (runList vs get cons s).2 = none) := by
  refine ⟨fun σ => rfl, ?_, fun σ vs₁ vs₂ get cons s => runList_append vs₁ vs₂ get cons s,
    ?_, ?_⟩
  · intro σ validators h
    cases validators with
    | nil => exact absurd rfl h
    | cons v rest => rfl
  · intro σ vs₁ v vs₂ get cons s s₁ s₂ e h₁ h₂
    rw [runList_append, h₁]
    simp [runList, h₂]
  · intro σ vs get cons s h
    induction vs generalizing s with
    | nil => simp [runList]
    | cons v rest ih =>
      have hv := h v (List.mem_cons_self v rest) s
      rcases hhv : v get cons s with ⟨s', err⟩
      rw [hhv] at hv
      simp only at hv
      subst hv
      simp only [runList, hhv]
      exact ih s' (fun w hw t => h w (List.mem_cons_of_mem v hw) t)

/-- Concrete run of Claim C1's short-circuit clause: with the source
`srcAB`, the pack prefix `Req "aaa" Bool` succeeds, `Req "zzz" Bool` fails
on the missing key, and the trailing `Req "bbb" Bool` is never invoked. -/
theorem C1_Pack_order_shortcircuit_witness :
    runList [Req "aaa" Bool, Req "zzz" Bool, Req "bbb" Bool] srcAB recCons [] =
      ([("aaa", "true")], some ("missing key: " ++ goQuote "zzz")) :=
  C1_Pack_order_shortcircuit.2.2.2.1 GoMap [Req "aaa" Bool] (Req "zzz" Bool)
    [Req "bbb" Bool] srcAB recCons [] [("aaa", "true")] [("aaa", "true")]
    ("missing key: " ++ goQuote "zzz") (by decide) (by decide)

/-- Claim C2: `Req` on an absent value fails with the missing-key error
naming the field and does not touch the consumer (the result returns the
state unchanged for every consumer); on a present value it runs the checker
and, on success, invokes the consumer exactly once with the key and the
normalized value, while a checker failure is wrapped with the quoted field
name and propagated. In particular `Req "ddd" Bool` against a source without
a "ddd" key yields the missing-key failure naming "ddd". -/
theorem C2_Req_missing_and_present :
    (∀ (σ : Type) (key : String) (check : Checker) (get : Getter) (cons : Consumer σ) (s : σ),
      (get key = "" →
        Req key check get cons s = (s, some ("missing key: " ++ goQuote key))) ∧
      (get key ≠ "" →
        (∀ v, check (get key) = (v, none) → Req key check get cons s = cons s key v) ∧
        (∀ v e, check (get key) = (v, some e) →
          Req key check get cons s =
            (s, some ("invalid value for key " ++ goQuote key ++ ": " ++ e))))) ∧
    (∀ (σ : Type) (cons : Consumer σ) (s : σ),
      Req "ddd" Bool (FromMap [("aaa", "1")]) cons s =
        (s, some ("missing key: " ++ goQuote "ddd"))) := by
  constructor
  · intro σ key check get cons s
    refine ⟨fun h => Req_absent check cons s h, fun h => ⟨?_, ?_⟩⟩
    · intro v hv
      rw [Req_present check cons s h, doCheck_ok cons s hv]
    · intro v e hv
      rw [Req_present check cons s h, doCheck_err cons s hv]
  · intro σ cons s
    exact Req_absent Bool cons s (by decide)

/-- Concrete run of Claim C2: `Req "ddd" Bool` against the source built from
a map with only an "aaa" key fails with the missing-key error naming "ddd",
leaving the recording consumer untouched. -/
theorem C2_Req_missing_and_present_witness :
    Req "ddd" Bool (FromMap [("aaa", "1")]) recCons [] =
      ([], some ("missing key: " ++ goQuote "ddd")) :=
  (C2_Req_missing_and_present.1 GoMap "ddd" Bool (FromMap [("aaa", "1")]) recCons []).1
    (by decide)

theorem mapFind_mapInsert (m : GoMap) (k v q : String) :
    mapFind (mapInsert m k v) q = if k = q then some v else mapFind m q := by
  induction m with
  | nil => simp [mapInsert, mapFind]
  | cons a rest ih =>
    obtain ⟨a₁, b₁⟩ := a
    by_cases hak : a₁ = k
    · subst hak
      simp only [mapInsert, if_pos rfl, mapFind]
      by_cases hkq : a₁ = q <;> simp [hkq, mapFind]
    · simp only [mapInsert, if_neg hak, mapFind]
      by_cases haq : a₁ = q
      · subst haq
        have hk : ¬k = a₁ := fun h => hak h.symm
        simp [hk, mapFind]
      · simp only [if_neg haq, ih]

/-- Claim C3: `OptDef` on an absent value invokes the consumer directly with
the literal default; the equation holds for every checker, so the default is
never run through the checker — stated explicitly for a checker that rejects
the default. On a present value `OptDef` behaves exactly like `Req`. -/
theorem C3_OptDef_default_unchecked :
    ∀ (σ : Type) (key : String) (check : Checker) (deflt : String) (get : Getter)
      (cons : Consumer σ) (s : σ),
      (get key = "" → OptDef key check deflt get cons s = cons s key deflt) ∧
      (∀ x e, check deflt = (x, some e) → get key = "" →
        OptDef key check deflt get cons s = cons s key deflt) ∧
      (get key ≠ "" → OptDef key check deflt get cons s = Req key check get cons s) := by
  intro σ key check deflt get cons s
  refine ⟨fun h => by simp [OptDef, h], fun x e _ h => by simp [OptDef, h], fun h => ?_⟩
  simp only [OptDef, Req]
  rw [if_pos (length_pos_of_ne_empty h), if_pos (length_pos_of_ne_empty h)]

/-- Concrete run of Claim C3: the default "XXX" is rejected by the checker
`Bool`, yet `OptDef "AAA" Bool "XXX"` on an empty source emits exactly
("AAA", "XXX"). -/
theorem C3_OptDef_default_unchecked_witness :
    OptDef "AAA" Bool "XXX" (FromMap []) recCons [] = ([("AAA", "XXX")], none) :=
  (C3_OptDef_default_unchecked GoMap "AAA" Bool "XXX" (FromMap []) recCons []).2.1
    "" (goQuote "XXX" ++ ": invalid syntax") (by decide) (by decide)

/-- Claim C4: `Cond` with both sub-validators nil fails construction
(`none`, modelling the panic); with at least one non-nil it returns the
conditional validator `condBody`, which on a present value runs the checker
and emits via `doCheck` (exactly the `Req` present-value path) and only on
success runs the `yes` sub-validator when non-nil — a nil `yes` adds nothing
beyond the conditional field's own emission — while a `doCheck` failure is
returned as is; on an absent value it runs the `no` sub-validator when
non-nil, and a nil `no` yields no effect and no failure. -/
theorem C4_Cond_branches :
    (∀ (σ : Type) (key : String) (check : Checker),
      Cond (σ := σ) key check none none = none) ∧
    (∀ (σ : Type) (key : String) (check : Checker) (yes no : Option (Validator σ)),
      yes ≠ none ∨ no ≠ none →
      Cond key check yes no = some (condBody key check yes no)) ∧
    (∀ (σ : Type) (key : String) (check : Checker) (yes no : Option (Validator σ))
        (get : Getter) (cons : Consumer σ) (s : σ),
      (get key ≠ "" →
        (∀ s₁, doCheck key (get key) check cons s = (s₁, none) →
          condBody key check yes no get cons s =
            (match yes with | some y => y get cons s₁ | none => (s₁, none))) ∧
        (∀ s₁ e, doCheck key (get key) check cons s = (s₁, some e) →
          condBody key check yes no get cons s = (s₁, some e))) ∧
      (get key = "" →
        condBody key check yes no get cons s =
          (match no with | some n => n get cons s | none => (s, none)))) := by
  refine ⟨fun σ key check => rfl, ?_, ?_⟩
  · intro σ key check yes no h
    cases yes with
    | some y => rfl
    | none =>
      cases no with
      | some n => rfl
      | none => rcases h with h | h <;> exact absurd rfl h
  · intro σ key check yes no get cons s
    refine ⟨fun h => ⟨?_, ?_⟩, fun h => ?_⟩
    · intro s₁ hd
      simp only [condBody]
      rw [if_pos (length_pos_of_ne_empty h), hd]
    · intro s₁ e hd
      simp only [condBody]
      rw [if_pos (length_pos_of_ne_empty h), hd]
    · simp [condBody, h]

/-- Concrete run of Claim C4: construction succeeds with a nil `no` branch,
and on a source where "aaa" is absent the validator has no effect and no
failure. -/
theorem C4_Cond_branches_witness :
    Cond "aaa" Bool (some (Req "bbb" Bool)) (none : Option (Validator GoMap)) =
      some (condBody "aaa" Bool (some (Req "bbb" Bool)) none) ∧
    condBody "aaa" Bool (some (Req "bbb" Bool)) (none : Option (Validator GoMap))
      (FromMap []) recCons [] = ([], none) :=
  ⟨C4_Cond_branches.2.1 GoMap "aaa" Bool (some (Req "bbb" Bool)) none
      (Or.inl (by simp)),
    (C4_Cond_branches.2.2 GoMap "aaa" Bool (some (Req "bbb" Bool)) none
      (FromMap []) recCons []).2 (by decide)⟩

/-- Claim C5: in `doCheck`, when the checker succeeds the result is exactly
one consumer invocation, so a consumer (sink) failure is returned verbatim,
with no field-name wrapping; only a checker failure is wrapped into the
field-scoped error combining the quoted key and the checker's message. -/
theorem C5_sink_failure_verbatim :
    ∀ (σ : Type) (key val : String) (check : Checker) (cons : Consumer σ) (s : σ),
      (∀ v, check val = (v, none) → doCheck key val check cons s = cons s key v) ∧
      (∀ v s₁ e, check val = (v, none) → cons s key v = (s₁, some e) →
        doCheck key val check cons s = (s₁, some e)) ∧
      (∀ v e, check val = (v, some e) →
        doCheck key val check cons s =
          (s, some ("invalid value for key " ++ goQuote key ++ ": " ++ e))) := by
  intro σ key val check cons s
  refine ⟨fun v hv => doCheck_ok cons s hv, fun v s₁ e hv hc => ?_,
    fun v e hv => doCheck_err cons s hv⟩
  rw [doCheck_ok cons s hv, hc]

/-- Concrete run of Claim C5: the checker `Bool` accepts "1", the failing
sink rejects the pair, and `doCheck` returns the sink's error unchanged. -/
theorem C5_sink_failure_verbatim_witness :
    doCheck "isOK" "1" Bool failCons [] = ([], some "sink failure") :=
  (C5_sink_failure_verbatim GoMap "isOK" "1" Bool failCons []).2.1
    "true" [] "sink failure" (by decide) (by decide)

/-- Claim C6: `Validator.Map` runs the validator with the map-filling
consumer `mapCons` on a fresh empty map, returning no map and the failure
when the run fails, and the accumulated map with no failure when it
succeeds; and map insertion is last-write-wins — after `mapInsert m k v`
the key `k` maps to `v` while every other key is unchanged. -/
theorem C6_Map_materializer :
    (∀ (validate : Validator GoMap) (get : Getter) (r : GoMap),
      validate get mapCons [] = (r, none) →
      Validator.Map validate get = (some r, none)) ∧
    (∀ (validate : Validator GoMap) (get : Getter) (r : GoMap) (e : Err),
      validate get mapCons [] = (r, some e) →
      Validator.Map validate get = (none, some e)) ∧
    (∀ (m : GoMap) (k v q : String),
      mapFind (mapInsert m k v) q = if k = q then some v else mapFind m q) := by
  refine ⟨?_, ?_, mapFind_mapInsert⟩
  · intro validate get r h
    simp [Validator.Map, h]
  · intro validate get r e h
    simp [Validator.Map, h]

/-- Concrete run of Claim C6: materializing `Req "aaa" Bool` over the source
`srcAB` yields the single-entry map with the normalized value. -/
theorem C6_Map_materializer_witness :
    Validator.Map (Req "aaa" Bool) srcAB = (some [("aaa", "true")], none) :=
  C6_Map_materializer.1 (Req "aaa" Bool) srcAB [("aaa", "true")] (by decide)

theorem mapGetD_mapInsert (m : GoMap) (k v q : String) :
    mapGetD (mapInsert m k v) q = if k = q then v else mapGetD m q := by
  induction m with
  | nil => simp [mapInsert, mapGetD]
  | cons a rest ih =>
    obtain ⟨a₁, b₁⟩ := a
    by_cases hak : a₁ = k
    · subst hak
      simp only [mapInsert, if_pos rfl, mapGetD]
      by_cases hkq : a₁ = q <;> simp [hkq, mapGetD]
    · simp only [mapInsert, if_neg hak, mapGetD]
      by_cases haq : a₁ = q
      · subst haq
        have hk : ¬k = a₁ := fun h => hak h.symm
        simp [hk, mapGetD]
      · simp only [if_neg haq, ih]

theorem oneOfMap_getD (lits : List String) (acc : GoMap) (val : String) :
    mapGetD (lits.foldl (fun m lit => mapInsert m lit lit) acc) val =
      if val ∈ lits then val else mapGetD acc val := by
  induction lits generalizing acc with
  | nil => simp
  | cons l rest ih =>
    simp only [List.foldl_cons, ih, mapGetD_mapInsert, List.mem_cons]
    by_cases hr : val ∈ rest
    · simp [hr]
    · by_cases hl : l = val
      · simp [hl, hr]
      · have : ¬val = l := fun h => hl h.symm
        simp [hr, hl, this]

/-- Claim C7: the checker `Bool` accepts exactly the twelve `ParseBool`
spellings, normalizing the six true spellings to "true" and the six false
spellings to "false", and fails on every other input with the quoted input
followed by the underlying parse error reason "invalid syntax". -/
theorem C7_Bool_spellings :
    (∀ s, s ∈ ["1", "t", "T", "TRUE", "true", "True"] → Bool s = ("true", none)) ∧
    (∀ s, s ∈ ["0", "f", "F", "FALSE", "false", "False"] → Bool s = ("false", none)) ∧
    (∀ s, s ∉ ["1", "t", "T", "TRUE", "true", "True",
               "0", "f", "F", "FALSE", "false", "False"] →
      Bool s = ("", some (goQuote s ++ ": invalid syntax"))) := by
  refine ⟨?_, ?_, ?_⟩
  · intro s hs
    simp only [List.mem_cons, List.not_mem_nil, or_false] at hs
    rcases hs with rfl | rfl | rfl | rfl | rfl | rfl <;> decide
  · intro s hs
    simp only [List.mem_cons, List.not_mem_nil, or_false] at hs
    rcases hs with rfl | rfl | rfl | rfl | rfl | rfl <;> decide
  · intro s hs
    simp only [List.mem_cons, List.not_mem_nil, or_false] at hs
    push_neg at hs
    obtain ⟨h1, h2, h3, h4, h5, h6, h7, h8, h9, h10, h11, h12⟩ := hs
    simp only [Bool, ParseBool, mapNumErr, h1, h2, h3, h4, h5, h6, h7, h8, h9, h10, h11,
      h12, or_self, if_false, false_or, or_false, Prod.mk.injEq, Option.some.injEq]
    constructor
    · trivial
    · rw [String.append_assoc]
      exact congrArg (fun t => goQuote s ++ t) (by decide)

/-- Concrete run of Claim C7: "yes" is not an accepted spelling and is
rejected with the quoted input and the "invalid syntax" reason. -/
theorem C7_Bool_spellings_witness :
    Bool "yes" = ("", some (goQuote "yes" ++ ": invalid syntax")) :=
  C7_Bool_spellings.2.2 "yes" (by decide)

/-- Claim C8: `OneOf` fails construction (`none`, modelling the panic) on an
empty literal list and on a list containing an empty literal; any checker it
does return maps an input that is one of the literals to that same (interned,
string-equal) literal with no failure, and any other input to a failure
quoting the input. -/
theorem C8_OneOf_membership :
    (OneOf [] = none) ∧
    (∀ literals, (literals.any fun lit => lit.isEmpty) = true → OneOf literals = none) ∧
    (∀ literals chk, OneOf literals = some chk →
      ∀ val, (val ∈ literals → chk val = (val, none)) ∧
             (val ∉ literals → chk val = ("", some (goQuote val)))) := by
  refine ⟨rfl, ?_, ?_⟩
  · intro literals h
    cases h1 : literals.isEmpty <;> simp [OneOf, h1, h]
  · intro literals chk h val
    cases h1 : literals.isEmpty with
    | true => rw [OneOf] at h; simp [h1] at h
    | false =>
      cases h2 : literals.any fun lit => lit.isEmpty with
      | true => rw [OneOf] at h; simp [h1, h2] at h
      | false =>
        rw [OneOf] at h
        simp only [h1, h2, Bool.false_eq_true, if_false, Option.some.injEq] at h
        subst h
        constructor
        · intro hv
          have hne : val ≠ "" := by
            intro he
            subst he
            have hh : (literals.any fun lit => lit.isEmpty) = true :=
              List.any_eq_true.mpr ⟨"", hv, rfl⟩
            rw [h2] at hh
            exact Bool.false_ne_true hh
          simp only [oneOfMap_getD, hv, if_pos, mapGetD]
          rw [if_neg (Nat.pos_iff_ne_zero.mp (length_pos_of_ne_empty hne))]
        · intro hv
          simp [oneOfMap_getD, hv, mapGetD]

/-- Concrete run of Claim C8: a literal list containing an empty literal is
rejected at construction time. -/
theorem C8_OneOf_membership_witness : OneOf ["xxx", ""] = none :=
  C8_OneOf_membership.2.1 ["xxx", ""] (by decide)

/-- Claim C9: evaluation is deterministic in the source's values. Every
validator closure in vald.go captures only construction-time immutable data,
which the embedding renders as a pure function of the getter, consumer and
state; hence running any validator against two independently constructed but
value-equal sources (here: two `FromMap` getters agreeing on every key)
yields the same final consumer state — the same emission sequence for a
recording consumer — and the same failure result, and re-running it changes
nothing, since the validator holds no state between calls. -/
theorem C9_deterministic_evaluation :
    ∀ (σ : Type) (validate : Validator σ) (m₁ m₂ : GoMap) (cons : Consumer σ) (s : σ),
      (∀ k, FromMap m₁ k = FromMap m₂ k) →
      validate (FromMap m₁) cons s = validate (FromMap m₂) cons s := by
  intro σ validate m₁ m₂ cons s h
  rw [funext h]

/-- Concrete run of Claim C9: the same validator over two maps listing the
same entries in different order produces identical results. -/
theorem C9_deterministic_evaluation_witness :
    Req "aaa" Bool (FromMap [("aaa", "1"), ("bbb", "0")]) recCons [] =
      Req "aaa" Bool (FromMap [("bbb", "0"), ("aaa", "1")]) recCons [] :=
  C9_deterministic_evaluation GoMap (Req "aaa" Bool)
    [("aaa", "1"), ("bbb", "0")] [("bbb", "0"), ("aaa", "1")] recCons []
    (by
      intro k
      by_cases h1 : "aaa" = k
      · subst h1; decide
      · by_cases h2 : "bbb" = k
        · subst h2; decide
        · simp [FromMap, mapGetD, h1, h2])

/-- Claim C10: a source returning the empty string for a key is
indistinguishable from the key being absent — all four field validators take
their absent branch (`Req` fails with the missing-key error, `Opt` does
nothing, `OptDef` emits the default, the conditional body takes the `no`
branch) — and none of the right-hand sides mention the checker, so no field
validator ever invokes its checker on the empty string, and a field
explicitly mapped to "" can never pass validation of its own value. -/
theorem C10_empty_equals_absent :
    ∀ (σ : Type) (key : String) (check : Checker) (deflt : String)
      (yes no : Option (Validator σ)) (get : Getter) (cons : Consumer σ) (s : σ),
      get key = "" →
      Req key check get cons s = (s, some ("missing key: " ++ goQuote key)) ∧
      Opt key check get cons s = (s, none) ∧
      OptDef key check deflt get cons s = cons s key deflt ∧
      condBody key check yes no get cons s =
        (match no with | some n => n get cons s | none => (s, none)) := by
  intro σ key check deflt yes no get cons s h
  exact ⟨Req_absent check cons s h, by simp [Opt, h], by simp [OptDef, h],
    by simp [condBody, h]⟩

/-- Concrete run of Claim C10: against a source whose map explicitly binds
"ddd" to the empty string, `Req` fails as missing, `Opt` does nothing and
`OptDef` emits its default. -/
theorem C10_empty_equals_absent_witness :
    Req "ddd" Bool (FromMap [("ddd", "")]) recCons [] =
      ([], some ("missing key: " ++ goQuote "ddd")) ∧
    Opt "ddd" Bool (FromMap [("ddd", "")]) recCons [] = ([], none) ∧
    OptDef "ddd" Bool "true" (FromMap [("ddd", "")]) recCons [] =
      ([("ddd", "true")], none) := by
  have h := C10_empty_equals_absent GoMap "ddd" Bool "true" none none
    (FromMap [("ddd", "")]) recCons [] (by decide)
  exact ⟨h.1, h.2.1, h.2.2.1⟩

end vald
